import Mathlib

set_option autoImplicit false

namespace Radextract

/-! Shallow embedding of `radextract` (src/radextract/extract.py, src/radextract/cli.py).

Machine integers in the Python source are unbounded (`int`), so they are
embedded as `Int`.  JSON data read from JSONL rows is embedded by the shapes
the viewer actually inspects: token lists are lists of strings, NER and
relation items are lists of scalars (ints or strings), and the `ner` /
`relations` fields are either a flat list of items or the nested
one-extra-level format that `_render_text` unwraps. -/

/-- Result shape of `extract.extract_entities`: a dict with keys `"text"` and
`"entities"`, the latter a list of `(start, end, entity_text, label)` tuples. -/
structure ExtractResult where
  text : String
  entities : List (Int × Int × String × String)
deriving DecidableEq, Repr

/-- Module function `extract.extract_entities` (extract.py lines 4-30): the
unimplemented stub, which returns the input text and an empty entity list. -/
def extract_entities (text : String) : ExtractResult :=
  ⟨text, []⟩

/-- CLI command `extract` (`extract_entities` in cli.py lines 401-407).  The
body only prints `Processing {input_file}` and, when an output file is given,
`Results will be saved to {output_file}`; it returns `None`.  The first
component collects the printed lines; the second is the returned value.  The
`fs` argument models the file system (path to file contents); the source never
reads `input_file`, so `fs` is unused. -/
def cliExtract (_fs : String → Option String) (input_file : String)
    (output_file : Option String) : List String × Option ExtractResult :=
  (("Processing " ++ input_file) ::
      (match output_file with
       | some o => ["Results will be saved to " ++ o]
       | none => []),
   none)

/-- A scalar element of an NER or relation item: a JSON int or string. -/
inductive JElem where
  | jint (n : Int)
  | jstr (s : String)
deriving DecidableEq, Repr

/-- An NER or relation item, i.e. a JSON array of scalars such as
`[start, end, label]` or `[start1, end1, start2, end2, relation_type]`. -/
abbrev Item := List JElem

/-- The `ner` or `relations` field of a record: either a flat list of items or
the nested format (a list whose first element is a list of items, which is what
`isinstance(ner[0][0], list)` detects, since in the flat format `ner[0][0]` is
a scalar).  An absent key behaves like `.flat []` (`data.get("ner", [])`). -/
inductive JField where
  | flat (items : List Item)
  | nested (batches : List (List Item))
deriving DecidableEq, Repr

/-- Python truthiness of the field value (`if ... and relations:`). -/
def JField.truthy : JField → Bool
  | .flat items => !items.isEmpty
  | .nested batches => !batches.isEmpty

/-- Selection `ner[0] if ner and isinstance(ner[0], list) and
isinstance(ner[0][0], list) else ner` (cli.py line 153).
In the flat format the first item's first element
is a scalar, so the original list is kept; in the nested format the first batch
is taken.  (When the probed first element is an empty list the Python
expression raises `IndexError`; theorems that range over records exclude that
region through `JField.probeOK`.) -/
def fieldItems : JField → List Item
  | .flat items => items
  | .nested [] => []
  | .nested (b :: _) => b

/-- The nested-format probe `ner[0][0]` does not raise: the first element of
the field (when present) is nonempty. -/
def JField.probeOK : JField → Prop
  | .flat items => items = [] ∨ items.head? ≠ some []
  | .nested batches => batches = [] ∨ batches.head? ≠ some []

instance : DecidablePred JField.probeOK := by
  intro f
  cases f <;> exact inferInstanceAs (Decidable (_ ∨ _))

/-- One parsed JSONL record, by the keys the viewer reads: `tokens`,
`sentences` (each `Option`, `none` meaning absent), `ner` and `relations`
(absent keys folded into `.flat []`). -/
structure Record where
  tokens : Option (List String)
  sentences : Option (List (List String))
  ner : JField
  relations : JField
deriving DecidableEq, Repr

/-- Token selection of `_render_text` (cli.py lines 127-135): the `tokens` key
if present, else the flattened `sentences`, else `[]`. -/
def getTokens (d : Record) : List String :=
  match d.tokens with
  | some ts => ts
  | none =>
    match d.sentences with
    | some ss => ss.flatten
    | none => []

/-- Helper for `pyIn`: does `needle` occur as a contiguous run in the list? -/
def pyInAux (needle : List Char) : List Char → Bool
  | [] => List.isPrefixOf needle []
  | b :: bs => List.isPrefixOf needle (b :: bs) || pyInAux needle bs

/-- Substring containment, Python's `needle in haystack` on strings. -/
def pyIn (needle haystack : String) : Bool :=
  pyInAux needle.toList haystack.toList

/-- The viewer's `color_map.get(label, "yellow")` (cli.py lines 141-148 with
the `.get` default of line 165 folded in): label to color, defaulting to
`"yellow"` for labels outside the map. -/
def colorMapGetD (label : String) : String :=
  if label = "Anatomy::definitely present" then "green"
  else if label = "Observation::definitely present" then "blue"
  else if label = "Anatomy::definitely absent" then "red"
  else if label = "Observation::definitely absent" then "red"
  else if label = "Observation::uncertain" then "yellow"
  else if label = "Anatomy::uncertain" then "yellow"
  else "yellow"

/-- `display_data`'s `color_map.get(label, "yellow")` (cli.py lines 344-357):
identical to the viewer's map except that `Observation::definitely present`
maps to `"green"` rather than `"blue"`. -/
def displayColorMapGetD (label : String) : String :=
  if label = "Anatomy::definitely present" then "green"
  else if label = "Observation::definitely present" then "green"
  else if label = "Anatomy::definitely absent" then "red"
  else if label = "Observation::definitely absent" then "red"
  else if label = "Observation::uncertain" then "yellow"
  else if label = "Anatomy::uncertain" then "yellow"
  else "yellow"

/-- The `start, end, label = item[0], item[1], item[2]` unpacking of a
well-typed NER item (two ints and a string; `item[2]` existing is exactly
`len(item) >= 3`).  `none` covers short items, which `_render_text` skips via
its length guard, and ill-typed items, on which the Python bodies raise
(`TypeError` in `range`/`in`, `IndexError` in `display_data`). -/
def itemInfo (item : Item) : Option (Int × Int × String) :=
  match item[0]?, item[1]?, item[2]? with
  | some (JElem.jint start), some (JElem.jint stop), some (JElem.jstr label) =>
    some (start, stop, label)
  | _, _, _ => none

/-- One iteration of the NER loop of `NERViewer._render_text` (cli.py lines
155-167): skip items shorter than 3, skip items filtered out by the
`show_anatomy` / `show_observation` checkboxes, otherwise write the label's
color into `token_colors` for every index in `range(start, end + 1)`.
`token_colors` is embedded as a function from indices to optional colors. -/
def applyNerItem (showA showO : Bool) (tc : Int → Option String) (item : Item) :
    Int → Option String :=
  match itemInfo item with
  | some (start, stop, label) =>
    if pyIn "Anatomy" label && !showA then tc
    else if pyIn "Observation" label && !showO then tc
    else fun idx => if start ≤ idx ∧ idx ≤ stop then some (colorMapGetD label) else tc idx
  | none => tc

/-- The whole NER loop over `ner_items`, starting from the empty
`token_colors = {}`. -/
def nerPass (showA showO : Bool) (items : List Item) : Int → Option String :=
  items.foldl (applyNerItem showA showO) (fun _ => none)

/-- The `start1, end1, start2, end2 = rel[0], rel[1], rel[2], rel[3]`
unpacking of a relation item, guarded by `len(rel) >= 5` (cli.py lines
177-179).  `none` also covers ill-typed bounds, on which `range` raises. -/
def relInfo (rel : Item) : Option (Int × Int × Int × Int) :=
  if rel.length ≥ 5 then
    match rel[0]?, rel[1]?, rel[2]?, rel[3]? with
    | some (JElem.jint s1), some (JElem.jint e1), some (JElem.jint s2), some (JElem.jint e2) =>
      some (s1, e1, s2, e2)
    | _, _, _, _ => none
  else none

/-- One iteration of the selected-relations loop (cli.py lines 174-184):
when `rel_idx` is in bounds and the relation has at least 5 elements, write
`"yellow"` over both entity spans. -/
def applyRelIdx (items : List Item) (tc : Int → Option String) (relIdx : Nat) :
    Int → Option String :=
  match items[relIdx]? with
  | some rel =>
    match relInfo rel with
    | some (s1, e1, s2, e2) =>
      fun idx => if (s1 ≤ idx ∧ idx ≤ e1) ∨ (s2 ≤ idx ∧ idx ≤ e2) then some "yellow" else tc idx
    | none => tc
  | none => tc

/-- The selected-relations stage of `_render_text` (cli.py lines 169-184),
guarded by `if self.selected_relations and relations:`.  The reactive
`selected_relations` set is embedded as the list of indices in iteration
order. -/
def relationPass (sel : List Nat) (relations : JField) (tc : Int → Option String) :
    Int → Option String :=
  if !sel.isEmpty && relations.truthy then
    sel.foldl (applyRelIdx (fieldItems relations)) tc
  else tc

/-- The complete `token_colors` mapping of `NERViewer._render_text` in cli.py:
the NER pass over `ner_items` followed by the selected-relations pass. -/
def tokenColors (d : Record) (showA showO : Bool) (sel : List Nat) :
    Int → Option String :=
  relationPass sel d.relations (nerPass showA showO (fieldItems d.ner))

/-- The token formatting of cli.py lines 188-193: a colored token becomes
`[color]token[/color]`, an uncolored token is kept as is. -/
def highlightToken (tc : Int → Option String) (i : Nat) (token : String) : String :=
  match tc (Int.ofNat i) with
  | some color => "[" ++ color ++ "]" ++ token ++ "[/" ++ color ++ "]"
  | none => token

/-- Python's `sep.join(parts)`. -/
def pyJoin (sep : String) : List String → String
  | [] => ""
  | [x] => x
  | x :: y :: xs => x ++ sep ++ pyJoin sep (y :: xs)

/-- The `highlighted_tokens` list built by `enumerate(tokens)`. -/
def highlightedTokens (d : Record) (showA showO : Bool) (sel : List Nat) : List String :=
  (getTokens d).enum.map (fun p => highlightToken (tokenColors d showA showO sel) p.1 p.2)

/-- Method `NERViewer._render_text` (cli.py lines 124-195):
`" ".join(highlighted_tokens)`. -/
def renderText (d : Record) (showA showO : Bool) (sel : List Nat) : String :=
  pyJoin " " (highlightedTokens d showA showO sel)

/-- One iteration of the NER loop of `display_data` (cli.py lines 355-359):
no length guard and no filters; the label's color (from `display_data`'s own
map) is written over `range(start, end + 1)`.  Items without a well-typed
`[start, end, label]` head make the Python unpacking raise and are skipped
here. -/
def applyDisplayItem (tc : Int → Option String) (item : Item) : Int → Option String :=
  match itemInfo item with
  | some (start, stop, label) =>
    fun idx => if start ≤ idx ∧ idx ≤ stop then some (displayColorMapGetD label) else tc idx
  | none => tc

/-- The `token_colors` mapping computed by `display_data` from its flat `ner`
list. -/
def displayTokenColors (ner : List Item) : Int → Option String :=
  ner.foldl applyDisplayItem (fun _ => none)

/-- Errors `show_jsonl_row` can raise: `ValueError` with its message, or the
`UnboundLocalError` hit when the f-string of the out-of-bounds message reads
the loop variable `i` after a loop over an empty file. -/
inductive PyErr where
  | valueError (msg : String)
  | unboundLocal
deriving DecidableEq, Repr

/-- Python's `Path(p).name`: the final path component, i.e. the characters after the
last `'/'` (paths without a trailing slash, which is the shape every call site
uses). -/
def pyName (path : String) : String :=
  String.mk ((path.toList.reverse.takeWhile (fun c => c != '/')).reverse)

/-- Index of the last `'.'` in a list of characters, if any. -/
def findLastDot : List Char → Option Nat
  | [] => none
  | c :: cs =>
    match findLastDot cs with
    | some i => some (i + 1)
    | none => if c = '.' then some (0 : Nat) else none

/-- Python's `Path(p).suffix`, as CPython computes it: with `i` the index of the last
dot in the final component, the substring from `i` when `0 < i < len - 1`,
else the empty string. -/
def pySuffix (path : String) : String :=
  let cs := (pyName path).toList
  match findLastDot cs with
  | some i => if 0 < i ∧ i + 1 < cs.length then String.mk (cs.drop i) else ""
  | none => ""

/-- CLI command `show-row` (`show_jsonl_row`, cli.py lines 421-451).  The file
system is `fs` (existing files mapped to their list of lines) and `json.loads`
is the abstract `jsonLoads` (`none` meaning `json.JSONDecodeError`).  The
checks run in source order: existence, `.jsonl` suffix, non-negative row, then
the loop over the lines.  A found row is parsed and handed to the viewer
(`Except.ok`); if the loop falls through, the out-of-bounds `ValueError`
message evaluates `i + 1`, which on a zero-line file raises the unbound-local
error instead. -/
def show_jsonl_row {D : Type} (fs : String → Option (List String))
    (jsonLoads : String → Option D) (jsonl_file : String) (row : Int) : Except PyErr D :=
  match fs jsonl_file with
  | none => Except.error (PyErr.valueError ("File does not exist: " ++ jsonl_file))
  | some lines =>
    if pySuffix jsonl_file ≠ ".jsonl" then
      Except.error (PyErr.valueError ("File must have .jsonl extension: " ++ jsonl_file))
    else if row < 0 then
      Except.error (PyErr.valueError ("Row index must be non-negative, got: " ++ toString row))
    else
      match lines[row.toNat]? with
      | some line =>
        match jsonLoads line with
        | some d => Except.ok d
        | none => Except.error (PyErr.valueError ("Invalid JSON at row " ++ toString row))
      | none =>
        if lines.isEmpty then Except.error PyErr.unboundLocal
        else
          Except.error (PyErr.valueError ("Row index " ++ toString row ++
            " out of bounds (file has " ++ toString lines.length ++ " rows)"))

/-- Did the call raise a `ValueError` (with any message)? -/
def isValueError {D : Type} : Except PyErr D → Bool
  | Except.error (PyErr.valueError _) => true
  | _ => false

/-- Does a well-typed `[start, end, label]` item pass the checkbox filters of
`_render_text`?  (Short or ill-typed items never reach the coloring line.) -/
def itemActive (showA showO : Bool) (it : Item) : Bool :=
  match itemInfo it with
  | some (_, _, label) =>
    !(pyIn "Anatomy" label && !showA) && !(pyIn "Observation" label && !showO)
  | none => false

/-- Does the item's inclusive `[start, end]` range cover token index `idx`? -/
def itemCovers (it : Item) (idx : Int) : Bool :=
  match itemInfo it with
  | some (start, stop, _) => decide (start ≤ idx ∧ idx ≤ stop)
  | none => false

/-- The viewer color an item writes for its covered indices. -/
def itemColor (it : Item) : Option String :=
  (itemInfo it).map (fun info => colorMapGetD info.2.2)

/-- The label of a well-typed item. -/
def itemLabel (it : Item) : Option String :=
  (itemInfo it).map (fun info => info.2.2)

/-- A well-typed item whose label contains `"Anatomy"`. -/
def isAnatomyItem (it : Item) : Bool :=
  match itemInfo it with
  | some (_, _, label) => pyIn "Anatomy" label
  | none => false

/-- A well-typed item whose label contains `"Observation"`. -/
def isObservationItem (it : Item) : Bool :=
  match itemInfo it with
  | some (_, _, label) => pyIn "Observation" label
  | none => false

/-- Replace the `ner` field of a record. -/
def withNer (d : Record) (f : JField) : Record :=
  ⟨d.tokens, d.sentences, f, d.relations⟩

/-- Is token index `idx` covered by an entity span of the relation at index
`relIdx` (in bounds, with at least 5 well-typed leading elements)? -/
def relCovers (items : List Item) (relIdx : Nat) (idx : Int) : Bool :=
  match items[relIdx]? with
  | some rel =>
    match relInfo rel with
    | some (s1, e1, s2, e2) => decide ((s1 ≤ idx ∧ idx ≤ e1) ∨ (s2 ≤ idx ∧ idx ≤ e2))
    | none => false
  | none => false

/-- Tag remover for the markup-stripping claim: outside a tag, `'['` opens a
tag and other characters are kept; inside a tag, everything up to the closing
`']'` is dropped. -/
def stripTagsAux : Bool → List Char → List Char
  | _, [] => []
  | true, c :: cs => if c = ']' then stripTagsAux false cs else stripTagsAux true cs
  | false, c :: cs => if c = '[' then stripTagsAux true cs else c :: stripTagsAux false cs

/-- Formalization of the claim's "with all color/style markup tags removed":
delete every bracket-delimited `[...]` segment of the rendered string. -/
def stripTags (s : String) : String :=
  String.mk (stripTagsAux false s.data)

/-- The token contains no square bracket, so it cannot collide with markup. -/
def bracketFree (s : String) : Bool :=
  s.data.all (fun c => c != '[' && c != ']')

/-- File system with a single, empty `empty.jsonl`. -/
def fsEmptyJsonl : String → Option (List String) :=
  fun p => if p = "empty.jsonl" then some [] else none

/-- A `json.loads` that rejects every line. -/
def loadsFail : String → Option Unit :=
  fun _ => none

/-- File system with a single two-line `a.jsonl`. -/
def fsDemo : String → Option (List String) :=
  fun p => if p = "a.jsonl" then some ["x", "y"] else none

/-- A `json.loads` that parses the line `"x"` to the value `42`. -/
def loadsDemo : String → Option Nat :=
  fun s => if s = "x" then some 42 else none

/-- Concrete NER item `[0, 1, "Anatomy::uncertain"]`. -/
def anatUncertainItem : Item :=
  [JElem.jint 0, JElem.jint 1, JElem.jstr "Anatomy::uncertain"]

/-- Concrete NER item `[0, 0, "Observation::definitely present"]`, on which
`display_data` and the viewer disagree. -/
def obsPresentItem : Item :=
  [JElem.jint 0, JElem.jint 0, JElem.jstr "Observation::definitely present"]

/-- Concrete relation item `[1, 2, 2, 2, "rel"]`. -/
def demoRel : Item :=
  [JElem.jint 1, JElem.jint 2, JElem.jint 2, JElem.jint 2, JElem.jstr "rel"]

/-- Concrete record with three tokens, one NER span and one relation. -/
def demoRecord : Record :=
  ⟨some ["a", "b", "c"], none, JField.flat [anatUncertainItem], JField.flat [demoRel]⟩

/-- Record whose only token is itself a markup tag, refuting the stripping
claim: the viewer renders it verbatim and stripping erases it. -/
def injRecord : Record :=
  ⟨some ["[green]"], none, JField.flat [], JField.flat []⟩

end Radextract

namespace Radextract

/-- Claim C1: for every input string, `extract.extract_entities` returns a
dictionary whose `"text"` field is the unchanged input and whose `"entities"`
field is the empty list. -/
theorem extract_entities_stub_spec :
    ∀ text : String,
      (extract_entities text).text = text ∧ (extract_entities text).entities = [] :=
  fun _ => ⟨rfl, rfl⟩

/-- Claim C8: on an existing `.jsonl` file with zero lines and any row index
`>= 0`, `show_jsonl_row` does not raise the out-of-bounds `ValueError`: the
loop never runs, the loop variable is unbound, and the call fails with the
unbound-local error. -/
theorem show_jsonl_row_empty_file {D : Type} (fs : String → Option (List String))
    (jsonLoads : String → Option D) (path : String) (row : Int)
    (hfs : fs path = some []) (hsuf : pySuffix path = ".jsonl") (hrow : 0 ≤ row) :
    show_jsonl_row fs jsonLoads path row = Except.error PyErr.unboundLocal ∧
      isValueError (show_jsonl_row fs jsonLoads path row) = false := by
  have h : show_jsonl_row fs jsonLoads path row = Except.error PyErr.unboundLocal := by
    unfold show_jsonl_row
    rw [hfs]
    simp [hsuf, not_lt.mpr hrow]
  exact ⟨h, by rw [h]; rfl⟩

/-- Witness for `show_jsonl_row_empty_file` at the empty `empty.jsonl`. -/
theorem show_jsonl_row_empty_file_witness :
    show_jsonl_row fsEmptyJsonl loadsFail "empty.jsonl" 0 = Except.error PyErr.unboundLocal ∧
      isValueError (show_jsonl_row fsEmptyJsonl loadsFail "empty.jsonl" 0) = false :=
  show_jsonl_row_empty_file fsEmptyJsonl loadsFail "empty.jsonl" 0 (by decide) (by decide)
    (by decide)

/-- Claim C2 fails as stated: `empty.jsonl` exists, has the `.jsonl` suffix,
the requested row `0` is non-negative and is `>=` the number of lines (zero),
so the claim requires a `ValueError`; the call instead hits the unbound-local
failure, so no `ValueError` is raised. -/
theorem show_jsonl_row_iff_counterexample :
    fsEmptyJsonl "empty.jsonl" = some [] ∧
      pySuffix "empty.jsonl" = ".jsonl" ∧
      (0 : Int) ≥ 0 ∧
      (0 : Int).toNat ≥ ([] : List String).length ∧
      isValueError (show_jsonl_row fsEmptyJsonl loadsFail "empty.jsonl" 0) = false := by
  exact ⟨rfl, by decide, by decide, by decide, rfl⟩

/-- Claim C2 as amended: `show_jsonl_row` raises `ValueError` iff the file
does not exist, or its pathlib suffix is not `.jsonl`, or the row is negative,
or the row is out of bounds on a file with at least one line, or the line at
the row is not valid JSON; and on an existing `.jsonl` file with a valid
in-bounds row it parses exactly the 0-based `row`-th line and shows it.  (On a
zero-line file an out-of-bounds row raises the unbound-local error instead,
see `show_jsonl_row_empty_file`.) -/
theorem show_jsonl_row_valueerror_iff {D : Type} (fs : String → Option (List String))
    (jsonLoads : String → Option D) (path : String) (row : Int) :
    (isValueError (show_jsonl_row fs jsonLoads path row) = true ↔
      fs path = none ∨
        ∃ lines, fs path = some lines ∧
          (pySuffix path ≠ ".jsonl" ∨
           (pySuffix path = ".jsonl" ∧ row < 0) ∨
           (pySuffix path = ".jsonl" ∧ 0 ≤ row ∧ lines ≠ [] ∧ lines.length ≤ row.toNat) ∨
           (pySuffix path = ".jsonl" ∧ 0 ≤ row ∧
             ∃ line, lines[row.toNat]? = some line ∧ jsonLoads line = none))) ∧
    (∀ lines line d, fs path = some lines → pySuffix path = ".jsonl" → 0 ≤ row →
      lines[row.toNat]? = some line → jsonLoads line = some d →
      show_jsonl_row fs jsonLoads path row = Except.ok d) := by
  constructor
  · rcases hfs : fs path with _ | lines
    · simp [show_jsonl_row, hfs, isValueError]
    · by_cases hsuf : pySuffix path = ".jsonl"
      · by_cases hrow : row < 0
        · simp [show_jsonl_row, hfs, hsuf, hrow, isValueError]
        · rcases hline : lines[row.toNat]? with _ | line
          · have hlen : lines.length ≤ row.toNat := List.getElem?_eq_none_iff.mp hline
            cases lines with
            | nil => simp [show_jsonl_row, hfs, hsuf, hrow, isValueError]
            | cons a as =>
              simp [show_jsonl_row, hfs, hsuf, hrow, hline, isValueError]
              exact ⟨not_lt.mp hrow, by simpa using hlen⟩
          · have hnle : ¬ lines.length ≤ row.toNat := fun hle => by
              rw [List.getElem?_eq_none hle] at hline
              exact Option.noConfusion hline
            rcases hload : jsonLoads line with _ | d
            · simp [show_jsonl_row, hfs, hsuf, hrow, hline, hload, isValueError,
                not_lt.mp hrow]
            · simp [show_jsonl_row, hfs, hsuf, hrow, hline, hload, isValueError, hnle]
      · simp [show_jsonl_row, hfs, hsuf, isValueError]
  · intro lines line d hfs hsuf hrow hline hload
    simp only [show_jsonl_row, hfs]
    rw [if_neg (by simp [hsuf]), if_neg (not_lt.mpr hrow)]
    simp only [hline, hload]

/-- Witness for `show_jsonl_row_valueerror_iff`: the first line of the demo
file parses and is shown. -/
theorem show_jsonl_row_valueerror_iff_witness :
    show_jsonl_row fsDemo loadsDemo "a.jsonl" 0 = Except.ok 42 :=
  (show_jsonl_row_valueerror_iff fsDemo loadsDemo "a.jsonl" 0).2 ["x", "y"] "x" 42 rfl
    (by decide) (by decide) rfl rfl

/-- The two color maps agree on every label except
`"Observation::definitely present"`. -/
theorem colorMaps_agree (label : String) (h : label ≠ "Observation::definitely present") :
    displayColorMapGetD label = colorMapGetD label := by
  unfold displayColorMapGetD colorMapGetD
  split_ifs <;> simp_all

/-- Claim C7 fails as stated: on the NER item
`[0, 0, "Observation::definitely present"]`, `display_data` colors token 0
green while `NERViewer._render_text` (both filters on, no relations selected)
colors it blue. -/
theorem displayData_viewer_disagree :
    displayTokenColors [obsPresentItem] 0 = some "green" ∧
      nerPass true true [obsPresentItem] 0 = some "blue" ∧
      displayTokenColors [obsPresentItem] 0 ≠ nerPass true true [obsPresentItem] 0 :=
  ⟨by decide, by decide, by decide⟩

/-- Pointwise agreement of the two NER folds, generalized over accumulators
that agree at the probed index. -/
theorem displayFold_eq_nerFold (idx : Int) :
    ∀ (items : List Item) (tc₁ tc₂ : Int → Option String),
      tc₁ idx = tc₂ idx →
      (∀ it ∈ items, (itemInfo it).isSome = true) →
      (∀ it ∈ items, itemLabel it ≠ some "Observation::definitely present") →
      (items.foldl applyDisplayItem tc₁) idx = (items.foldl (applyNerItem true true) tc₂) idx := by
  intro items
  induction items with
  | nil =>
    intro tc₁ tc₂ h _ _
    simpa using h
  | cons it rest ih =>
    intro tc₁ tc₂ h hwf hlab
    rw [List.foldl_cons, List.foldl_cons]
    apply ih
    · rcases hinfo : itemInfo it with _ | ⟨s, e, l⟩
      · have hw := hwf it (List.mem_cons_self it rest)
        rw [hinfo] at hw
        exact absurd hw (by simp)
      · have hl : l ≠ "Observation::definitely present" := by
          have hb := hlab it (List.mem_cons_self it rest)
          simp [itemLabel, hinfo] at hb
          exact hb
        simp only [applyDisplayItem, applyNerItem, hinfo, Bool.not_true, Bool.and_false,
          Bool.false_eq_true, if_false]
        rw [colorMaps_agree l hl, h]
    · intro it' h'
      exact hwf it' (List.mem_cons_of_mem _ h')
    · intro it' h'
      exact hlab it' (List.mem_cons_of_mem _ h')

/-- Claim C7 as amended: for flat well-typed NER items none of which is
labelled `"Observation::definitely present"`, `display_data` assigns each
token index exactly the color `NERViewer._render_text` assigns with both
filters on and no relations selected. -/
theorem displayData_matches_viewer (ner : List Item) (idx : Int)
    (hwf : ∀ it ∈ ner, (itemInfo it).isSome = true)
    (hlab : ∀ it ∈ ner, itemLabel it ≠ some "Observation::definitely present") :
    displayTokenColors ner idx = nerPass true true ner idx :=
  displayFold_eq_nerFold idx ner (fun _ => none) (fun _ => none) rfl hwf hlab

/-- Witness for `displayData_matches_viewer` on one `Anatomy::uncertain` item. -/
theorem displayData_matches_viewer_witness :
    displayTokenColors [anatUncertainItem] 0 = nerPass true true [anatUncertainItem] 0 :=
  displayData_matches_viewer [anatUncertainItem] 0 (by decide) (by decide)

/-- Claim C3: in the viewer's NER pass, the color at a token index is exactly
the color of the last NER item in the list that has at least three well-typed
elements, passes the active filters, and covers the index with its inclusive
`[start, end]` range; the color is the label's entry in the viewer color map,
defaulting to yellow (see `colorMapGetD`).  Later items thus override earlier
ones on overlaps. -/
theorem nerPass_last_active_covering (showA showO : Bool) (items : List Item) (idx : Int) :
    nerPass showA showO items idx =
      ((items.filter (fun it => itemActive showA showO it && itemCovers it idx)).getLast?).bind
        itemColor := by
  induction items using List.reverseRecOn with
  | nil => rfl
  | append_singleton l x ih =>
    have hfold : nerPass showA showO (l ++ [x]) =
        applyNerItem showA showO (nerPass showA showO l) x := by
      unfold nerPass
      rw [List.foldl_append, List.foldl_cons, List.foldl_nil]
    rw [hfold, List.filter_append]
    rcases hinfo : itemInfo x with _ | ⟨s, e, lab⟩
    · have hact : (itemActive showA showO x && itemCovers x idx) = false := by
        simp [itemActive, hinfo]
      simp [applyNerItem, hinfo, List.filter_cons, hact, ih]
    · cases hA : (pyIn "Anatomy" lab && !showA) with
      | true =>
        have hact : (itemActive showA showO x && itemCovers x idx) = false := by
          simp [itemActive, hinfo, hA]
        simp [applyNerItem, hinfo, hA, List.filter_cons, hact, ih]
      | false =>
        cases hO : (pyIn "Observation" lab && !showO) with
        | true =>
          have hact : (itemActive showA showO x && itemCovers x idx) = false := by
            simp [itemActive, hinfo, hA, hO]
          simp [applyNerItem, hinfo, hA, hO, List.filter_cons, hact, ih]
        | false =>
          by_cases hcov : s ≤ idx ∧ idx ≤ e
          · have hact : (itemActive showA showO x && itemCovers x idx) = true := by
              simp [itemActive, itemCovers, hinfo, hA, hO, hcov]
            rw [List.filter_cons]
            simp only [hact, if_true, List.filter_nil]
            rw [List.getLast?_concat]
            simp [applyNerItem, hinfo, hA, hO, hcov, itemColor]
          · have hact : (itemActive showA showO x && itemCovers x idx) = false := by
              simp [itemCovers, hinfo, hcov]
            simp [applyNerItem, hinfo, hA, hO, hcov, List.filter_cons, hact, ih]

/-- NER fold with `show_anatomy` off: items whose label contains `"Anatomy"`
are skipped, so the fold equals the fold over the list with them removed
(generalized over the accumulator). -/
theorem nerFold_drop_anatomy (showO : Bool) :
    ∀ (items : List Item) (tc : Int → Option String),
      items.foldl (applyNerItem false showO) tc =
        (items.filter (fun it => !isAnatomyItem it)).foldl (applyNerItem false showO) tc := by
  intro items
  induction items with
  | nil => intro tc; rfl
  | cons it rest ih =>
    intro tc
    rw [List.foldl_cons, List.filter_cons]
    cases hA : isAnatomyItem it with
    | true =>
      have hskip : applyNerItem false showO tc it = tc := by
        rcases hinfo : itemInfo it with _ | ⟨s, e, lab⟩
        · simp [applyNerItem, hinfo]
        · have hin : pyIn "Anatomy" lab = true := by
            rw [isAnatomyItem, hinfo] at hA
            exact hA
          simp [applyNerItem, hinfo, hin]
      simp only [hA, Bool.not_true, Bool.false_eq_true, if_false]
      rw [hskip, ih]
    | false =>
      simp only [hA, Bool.not_false, if_true]
      rw [List.foldl_cons, ih]

/-- NER fold with `show_observation` off: symmetric to `nerFold_drop_anatomy`. -/
theorem nerFold_drop_observation (showA : Bool) :
    ∀ (items : List Item) (tc : Int → Option String),
      items.foldl (applyNerItem showA false) tc =
        (items.filter (fun it => !isObservationItem it)).foldl (applyNerItem showA false) tc := by
  intro items
  induction items with
  | nil => intro tc; rfl
  | cons it rest ih =>
    intro tc
    rw [List.foldl_cons, List.filter_cons]
    cases hO : isObservationItem it with
    | true =>
      have hskip : applyNerItem showA false tc it = tc := by
        rcases hinfo : itemInfo it with _ | ⟨s, e, lab⟩
        · simp [applyNerItem, hinfo]
        · have hin : pyIn "Observation" lab = true := by
            rw [isObservationItem, hinfo] at hO
            exact hO
          by_cases hA : (pyIn "Anatomy" lab && !showA) = true
          · simp [applyNerItem, hinfo, hA]
          · simp [applyNerItem, hinfo, hA, hin]
      simp only [hO, Bool.not_true, Bool.false_eq_true, if_false]
      rw [hskip, ih]
    | false =>
      simp only [hO, Bool.not_false, if_true]
      rw [List.foldl_cons, ih]

/-- Claim C4: with `show_anatomy` off, no item whose label contains
`"Anatomy"` contributes any color to the rendered text (removing all such
items changes nothing), and symmetrically for `show_observation` and
`"Observation"`; the rendering is a pure function of the current flag
values. -/
theorem renderText_filters_drop_spans (d : Record) (sel : List Nat) :
    (∀ showO, renderText d false showO sel =
      renderText
        (withNer d (JField.flat ((fieldItems d.ner).filter (fun it => !isAnatomyItem it))))
        false showO sel) ∧
    (∀ showA, renderText d showA false sel =
      renderText
        (withNer d (JField.flat ((fieldItems d.ner).filter (fun it => !isObservationItem it))))
        showA false sel) := by
  constructor
  · intro showO
    show pyJoin " " ((getTokens d).enum.map (fun p =>
        highlightToken
          (relationPass sel d.relations (nerPass false showO (fieldItems d.ner))) p.1 p.2)) =
      pyJoin " " ((getTokens d).enum.map (fun p =>
        highlightToken
          (relationPass sel d.relations
            (nerPass false showO ((fieldItems d.ner).filter (fun it => !isAnatomyItem it))))
          p.1 p.2))
    rw [show nerPass false showO (fieldItems d.ner) =
        nerPass false showO ((fieldItems d.ner).filter (fun it => !isAnatomyItem it)) from
      nerFold_drop_anatomy showO (fieldItems d.ner) (fun _ => none)]
  · intro showA
    show pyJoin " " ((getTokens d).enum.map (fun p =>
        highlightToken
          (relationPass sel d.relations (nerPass showA false (fieldItems d.ner))) p.1 p.2)) =
      pyJoin " " ((getTokens d).enum.map (fun p =>
        highlightToken
          (relationPass sel d.relations
            (nerPass showA false ((fieldItems d.ner).filter (fun it => !isObservationItem it))))
          p.1 p.2))
    rw [show nerPass showA false (fieldItems d.ner) =
        nerPass showA false ((fieldItems d.ner).filter (fun it => !isObservationItem it)) from
      nerFold_drop_observation showA (fieldItems d.ner) (fun _ => none)]

/-- The selected-relations fold, characterized: an index covered by some
selected relation is yellow, any other index keeps its incoming color. -/
theorem relFold_yellow (items : List Item) (idx : Int) :
    ∀ (sel : List Nat) (tc : Int → Option String),
      (sel.foldl (applyRelIdx items) tc) idx =
        if sel.any (fun r => relCovers items r idx) then some "yellow" else tc idx := by
  intro sel
  induction sel with
  | nil => intro tc; simp
  | cons r rest ih =>
    intro tc
    rw [List.foldl_cons, ih]
    rcases hrel : items[r]? with _ | rel
    · simp [applyRelIdx, relCovers, hrel]
    · rcases hinfo : relInfo rel with _ | ⟨s1, e1, s2, e2⟩
      · simp [applyRelIdx, relCovers, hrel, hinfo]
      · by_cases hcov : (s1 ≤ idx ∧ idx ≤ e1) ∨ (s2 ≤ idx ∧ idx ≤ e2)
        · simp [applyRelIdx, relCovers, hrel, hinfo, hcov]
        · simp [applyRelIdx, relCovers, hrel, hinfo, hcov]

/-- Claim C9: a token index covered by either entity span of a currently
selected relation (selected, in bounds, at least 5 elements) gets the yellow
relation highlight in `token_colors`, whatever the NER items and the filter
flags said, and its token is rendered wrapped in yellow markup. -/
theorem selected_relation_forces_yellow (d : Record) (showA showO : Bool) (sel : List Nat)
    (relIdx : Nat) (rel : Item) (s1 e1 s2 e2 idx : Int)
    (hmem : relIdx ∈ sel)
    (hrel : (fieldItems d.relations)[relIdx]? = some rel)
    (hinfo : relInfo rel = some (s1, e1, s2, e2))
    (hcov : (s1 ≤ idx ∧ idx ≤ e1) ∨ (s2 ≤ idx ∧ idx ≤ e2)) :
    tokenColors d showA showO sel idx = some "yellow" ∧
      (∀ (i : Nat) (tok : String), idx = Int.ofNat i → (getTokens d)[i]? = some tok →
        (highlightedTokens d showA showO sel)[i]? =
          some ("[" ++ "yellow" ++ "]" ++ tok ++ "[/" ++ "yellow" ++ "]")) := by
  have hcover : relCovers (fieldItems d.relations) relIdx idx = true := by
    simp [relCovers, hrel, hinfo, hcov]
  have hany : sel.any (fun r => relCovers (fieldItems d.relations) r idx) = true :=
    List.any_eq_true.mpr ⟨relIdx, hmem, hcover⟩
  have hne : sel.isEmpty = false := by
    cases sel with
    | nil => exact absurd hmem (List.not_mem_nil relIdx)
    | cons a l => rfl
  have htruthy : d.relations.truthy = true := by
    rcases hfld : d.relations with items | batches
    · cases items with
      | nil =>
        rw [hfld] at hrel
        exact absurd hrel (by simp [fieldItems])
      | cons i is => simp [JField.truthy]
    · cases batches with
      | nil =>
        rw [hfld] at hrel
        exact absurd hrel (by simp [fieldItems])
      | cons b bs => simp [JField.truthy]
  have hmain : tokenColors d showA showO sel idx = some "yellow" := by
    unfold tokenColors relationPass
    simp only [hne, htruthy, Bool.not_false, Bool.and_self, if_true]
    rw [relFold_yellow, hany, if_pos rfl]
  refine ⟨hmain, ?_⟩
  intro i tok hidx htok
  unfold highlightedTokens
  rw [List.getElem?_map, List.getElem?_enum, htok]
  simp only [Option.map_some']
  unfold highlightToken
  rw [← hidx, hmain]

/-- Witness for `selected_relation_forces_yellow`: selecting the demo relation
`[1, 2, 2, 2, "rel"]` turns token 2 (`"c"`) yellow. -/
theorem selected_relation_forces_yellow_witness :
    tokenColors demoRecord true true [0] 2 = some "yellow" ∧
      (highlightedTokens demoRecord true true [0])[2]? =
        some ("[" ++ "yellow" ++ "]" ++ "c" ++ "[/" ++ "yellow" ++ "]") :=
  ⟨(selected_relation_forces_yellow demoRecord true true [0] 0 demoRel 1 2 2 2 2
      (by decide) rfl rfl (by decide)).1,
   (selected_relation_forces_yellow demoRecord true true [0] 0 demoRel 1 2 2 2 2
      (by decide) rfl rfl (by decide)).2 2 "c" rfl rfl⟩

/-- Claim C10: `_render_text` is a function of the membership of
`selected_relations`, not of its iteration order: two selection lists with the
same members render identically (together with identical data and flags). -/
theorem renderText_order_independent (d : Record) (showA showO : Bool) (sel₁ sel₂ : List Nat)
    (h : ∀ r : Nat, r ∈ sel₁ ↔ r ∈ sel₂) :
    renderText d showA showO sel₁ = renderText d showA showO sel₂ := by
  have htc : tokenColors d showA showO sel₁ = tokenColors d showA showO sel₂ := by
    funext idx
    have hemp : sel₁.isEmpty = sel₂.isEmpty := by
      cases h1 : sel₁.isEmpty <;> cases h2 : sel₂.isEmpty <;> try rfl
      · rw [List.isEmpty_eq_false] at h1
        rw [List.isEmpty_iff] at h2
        rcases List.exists_mem_of_ne_nil sel₁ h1 with ⟨r, hr⟩
        rw [h2] at h
        exact absurd ((h r).mp hr) (List.not_mem_nil r)
      · rw [List.isEmpty_eq_false] at h2
        rw [List.isEmpty_iff] at h1
        rcases List.exists_mem_of_ne_nil sel₂ h2 with ⟨r, hr⟩
        rw [h1] at h
        exact absurd ((h r).mpr hr) (List.not_mem_nil r)
    have hani : sel₁.any (fun r => relCovers (fieldItems d.relations) r idx) =
        sel₂.any (fun r => relCovers (fieldItems d.relations) r idx) := by
      cases h2 : sel₂.any (fun r => relCovers (fieldItems d.relations) r idx) with
      | true =>
        rcases List.any_eq_true.mp h2 with ⟨r, hr, hc⟩
        exact List.any_eq_true.mpr ⟨r, (h r).mpr hr, hc⟩
      | false =>
        rw [List.any_eq_false] at h2 ⊢
        intro r hr
        exact h2 r ((h r).mp hr)
    unfold tokenColors relationPass
    rw [hemp]
    by_cases hg : (!sel₂.isEmpty && d.relations.truthy) = true
    · rw [if_pos hg, if_pos hg, relFold_yellow, relFold_yellow, hani]
    · rw [if_neg hg, if_neg hg]
  unfold renderText highlightedTokens
  rw [htc]

/-- Witness for `renderText_order_independent`: the two iteration orders of
the set containing relations 0 and 1. -/
theorem renderText_order_independent_witness :
    renderText demoRecord true true [0, 1] = renderText demoRecord true true [1, 0] :=
  renderText_order_independent demoRecord true true [0, 1] [1, 0] (by
    intro r
    simp [List.mem_cons]
    tauto)

/-- Claim C6: evaluation of the CLI `extract` command at a concrete input file
whose contents are `"Test radiology report text."` and a concrete output path.
The command only prints two status lines and returns `None`: it never reads the
input file (the result is independent of `fs`) and produces no result object,
although the repository's own tests
(`test_extract_entities_integration`) assert that the output file then holds
`{"text": "Test radiology report text.", "entities": []}`. -/
theorem cliExtract_stub_at_failing_input :
    cliExtract (fun _ => some "Test radiology report text.") "input.txt" (some "out.json") =
      (["Processing input.txt", "Results will be saved to out.json"], none) :=
  rfl

/-- Stripper step: an opening bracket enters tag mode. -/
theorem stripTagsAux_open (cs : List Char) :
    stripTagsAux false ('[' :: cs) = stripTagsAux true cs := by
  simp [stripTagsAux]

/-- Stripper step: outside a tag, a non-bracket character is kept. -/
theorem stripTagsAux_keep (c : Char) (cs : List Char) (h : c ≠ '[') :
    stripTagsAux false (c :: cs) = c :: stripTagsAux false cs := by
  simp [stripTagsAux, h]

/-- Stripper step: a closing bracket leaves tag mode. -/
theorem stripTagsAux_close (cs : List Char) :
    stripTagsAux true (']' :: cs) = stripTagsAux false cs := by
  simp [stripTagsAux]

/-- Stripper step: inside a tag, a non-`']'` character is dropped. -/
theorem stripTagsAux_drop (c : Char) (cs : List Char) (h : c ≠ ']') :
    stripTagsAux true (c :: cs) = stripTagsAux true cs := by
  simp [stripTagsAux, h]

/-- Stripping passes a bracket-free prefix through unchanged. -/
theorem stripTagsAux_bracketFree (cs : List Char) (rest : List Char)
    (h : ∀ c ∈ cs, c ≠ '[' ∧ c ≠ ']') :
    stripTagsAux false (cs ++ rest) = cs ++ stripTagsAux false rest := by
  induction cs with
  | nil => rfl
  | cons c cs ih =>
    rw [List.cons_append, stripTagsAux_keep c _ (h c (List.mem_cons_self c cs)).1]
    rw [ih (fun x hx => h x (List.mem_cons_of_mem c hx))]
    rfl

/-- In tag mode, everything up to the next `']'` is consumed. -/
theorem stripTagsAux_consume (inner : List Char) (rest : List Char)
    (h : ∀ c ∈ inner, c ≠ ']') :
    stripTagsAux true (inner ++ ']' :: rest) = stripTagsAux false rest := by
  induction inner with
  | nil => exact stripTagsAux_close rest
  | cons c cs ih =>
    rw [List.cons_append, stripTagsAux_drop c _ (h c (List.mem_cons_self c cs))]
    exact ih (fun x hx => h x (List.mem_cons_of_mem c hx))

/-- Stripping a `[color]token[/color]` wrapper yields the bare token, for a
bracket-free color and token. -/
theorem stripTagsAux_wrapped (c tok : String) (rest : List Char)
    (hc : ∀ ch ∈ c.data, ch ≠ '[' ∧ ch ≠ ']')
    (htok : ∀ ch ∈ tok.data, ch ≠ '[' ∧ ch ≠ ']') :
    stripTagsAux false (("[" ++ c ++ "]" ++ tok ++ "[/" ++ c ++ "]").data ++ rest) =
      tok.data ++ stripTagsAux false rest := by
  have h1 : "[".data = ['['] := rfl
  have h2 : "]".data = [']'] := rfl
  have h3 : "[/".data = ['[', '/'] := rfl
  simp only [String.data_append, h1, h2, h3, List.append_assoc, List.cons_append,
    List.nil_append]
  rw [stripTagsAux_open]
  rw [stripTagsAux_consume c.data _ (fun x hx => (hc x hx).2)]
  rw [stripTagsAux_bracketFree tok.data _ htok]
  rw [stripTagsAux_open]
  rw [stripTagsAux_drop '/' _ (by decide)]
  rw [stripTagsAux_consume c.data _ (fun x hx => (hc x hx).2)]

/-- Every color produced by the viewer color map is bracket-free. -/
theorem colorMapGetD_bracketFree (label : String) :
    ∀ ch ∈ (colorMapGetD label).data, ch ≠ '[' ∧ ch ≠ ']' := by
  unfold colorMapGetD
  split_ifs <;> decide

/-- Colors accumulated by the NER fold are bracket-free (given a bracket-free
base map). -/
theorem nerFold_colors_bracketFree (showA showO : Bool) :
    ∀ (items : List Item) (tc : Int → Option String),
      (∀ (i : Int) (c : String), tc i = some c → ∀ ch ∈ c.data, ch ≠ '[' ∧ ch ≠ ']') →
      ∀ (i : Int) (c : String), (items.foldl (applyNerItem showA showO) tc) i = some c →
        ∀ ch ∈ c.data, ch ≠ '[' ∧ ch ≠ ']' := by
  intro items
  induction items with
  | nil =>
    intro tc htc
    exact htc
  | cons it rest ih =>
    intro tc htc
    rw [List.foldl_cons]
    apply ih
    intro i c hc
    rcases hinfo : itemInfo it with _ | ⟨s, e, lab⟩
    · simp only [applyNerItem, hinfo] at hc
      exact htc i c hc
    · simp only [applyNerItem, hinfo] at hc
      by_cases hA : (pyIn "Anatomy" lab && !showA) = true
      · rw [if_pos hA] at hc
        exact htc i c hc
      · rw [if_neg hA] at hc
        by_cases hO : (pyIn "Observation" lab && !showO) = true
        · rw [if_pos hO] at hc
          exact htc i c hc
        · rw [if_neg hO] at hc
          by_cases hcov : s ≤ i ∧ i ≤ e
          · rw [if_pos hcov] at hc
            injection hc with hc
            rw [← hc]
            exact colorMapGetD_bracketFree lab
          · rw [if_neg hcov] at hc
            exact htc i c hc

/-- Every color in the viewer's final `token_colors` is bracket-free. -/
theorem tokenColors_bracketFree (d : Record) (showA showO : Bool) (sel : List Nat) :
    ∀ (i : Int) (c : String), tokenColors d showA showO sel i = some c →
      ∀ ch ∈ c.data, ch ≠ '[' ∧ ch ≠ ']' := by
  intro i c hc
  have hbase : ∀ (j : Int) (x : String),
      nerPass showA showO (fieldItems d.ner) j = some x →
        ∀ ch ∈ x.data, ch ≠ '[' ∧ ch ≠ ']' := by
    intro j x hx
    exact nerFold_colors_bracketFree showA showO (fieldItems d.ner) (fun _ => none)
      (fun _ _ hnone => absurd hnone (by simp)) j x hx
  unfold tokenColors relationPass at hc
  by_cases hg : (!sel.isEmpty && d.relations.truthy) = true
  · rw [if_pos hg, relFold_yellow] at hc
    by_cases hany : sel.any (fun r => relCovers (fieldItems d.relations) r i) = true
    · rw [if_pos hany] at hc
      injection hc with hc
      rw [← hc]
      decide
    · rw [if_neg hany] at hc
      exact hbase i c hc
  · rw [if_neg hg] at hc
    exact hbase i c hc

/-- Stripping a highlighted token (wrapped or not) recovers the token. -/
theorem stripTagsAux_highlight (tc : Int → Option String)
    (htc : ∀ (i : Int) (c : String), tc i = some c → ∀ ch ∈ c.data, ch ≠ '[' ∧ ch ≠ ']')
    (i : Nat) (tok : String) (rest : List Char)
    (htok : ∀ ch ∈ tok.data, ch ≠ '[' ∧ ch ≠ ']') :
    stripTagsAux false ((highlightToken tc i tok).data ++ rest) =
      tok.data ++ stripTagsAux false rest := by
  unfold highlightToken
  rcases hcol : tc (Int.ofNat i) with _ | c
  · exact stripTagsAux_bracketFree tok.data rest htok
  · exact stripTagsAux_wrapped c tok rest (htc (Int.ofNat i) c hcol) htok

/-- Stripping the joined highlighted tokens recovers the joined tokens. -/
theorem stripTagsAux_join (tc : Int → Option String)
    (htc : ∀ (i : Int) (c : String), tc i = some c → ∀ ch ∈ c.data, ch ≠ '[' ∧ ch ≠ ']') :
    ∀ (toks : List String) (n : Nat),
      (∀ tok ∈ toks, bracketFree tok = true) →
      stripTagsAux false
          (pyJoin " " ((toks.enumFrom n).map (fun p => highlightToken tc p.1 p.2))).data =
        (pyJoin " " toks).data := by
  have hbf : ∀ tok : String, bracketFree tok = true → ∀ ch ∈ tok.data, ch ≠ '[' ∧ ch ≠ ']' := by
    intro tok hb ch hch
    have := List.all_eq_true.mp hb ch hch
    simp only [Bool.and_eq_true, bne_iff_ne, ne_eq] at this
    exact this
  intro toks
  induction toks with
  | nil =>
    intro n _
    rfl
  | cons t ts ih =>
    intro n h
    cases ts with
    | nil =>
      show stripTagsAux false (highlightToken tc n t).data = t.data
      have hone := stripTagsAux_highlight tc htc n t []
        (hbf t (h t (List.mem_cons_self t [])))
      rw [List.append_nil] at hone
      rw [hone, show stripTagsAux false [] = ([] : List Char) from rfl, List.append_nil]
    | cons t' ts' =>
      show stripTagsAux false
          ((highlightToken tc n t ++ " " ++
            pyJoin " " (((t' :: ts').enumFrom (n + 1)).map
              (fun p => highlightToken tc p.1 p.2))).data) =
        (t ++ " " ++ pyJoin " " (t' :: ts')).data
      simp only [String.data_append, List.append_assoc]
      rw [stripTagsAux_highlight tc htc n t _ (hbf t (h t (List.mem_cons_self t (t' :: ts'))))]
      rw [List.singleton_append, List.singleton_append]
      rw [stripTagsAux_keep ' ' _ (by decide)]
      rw [ih (n + 1) (fun x hx => h x (List.mem_cons_of_mem t hx))]

/-- Claim C5 fails as stated: the record whose only token is the literal
string `"[green]"` renders verbatim, but removing markup tags erases the
token, so the stripped rendering is not the tokens joined by spaces. -/
theorem renderText_strip_counterexample :
    stripTags (renderText injRecord true true []) ≠ pyJoin " " (getTokens injRecord) := by
  decide

/-- Claim C5 as amended: for records whose tokens contain no square brackets,
`_render_text` with all markup tags removed is exactly the tokens joined by
single spaces, for every filter state and relation selection — the markup
never alters token text, count or order. -/
theorem renderText_strip_markup (d : Record) (showA showO : Bool) (sel : List Nat)
    (h : ∀ tok ∈ getTokens d, bracketFree tok = true) :
    stripTags (renderText d showA showO sel) = pyJoin " " (getTokens d) := by
  apply String.ext
  show stripTagsAux false (renderText d showA showO sel).data = (pyJoin " " (getTokens d)).data
  unfold renderText highlightedTokens
  rw [show (getTokens d).enum = (getTokens d).enumFrom 0 from rfl]
  exact stripTagsAux_join (tokenColors d showA showO sel)
    (tokenColors_bracketFree d showA showO sel) (getTokens d) 0 h

/-- Witness for `renderText_strip_markup` on the demo record. -/
theorem renderText_strip_markup_witness :
    stripTags (renderText demoRecord true true []) = pyJoin " " (getTokens demoRecord) :=
  renderText_strip_markup demoRecord true true [] (by decide)

end Radextract
